import Mathlib

/-!
Verification of the scraping engine in `server.js` (sales-radar).

The development shallowly embeds the logic-bearing parts of the program:

* the Page Extractor (`extractTweetsFromPage`, source lines 125-235),
* the merge step of the Collection Loop (source lines 352-356),
* the Collection Loop state machine (source lines 345-370),
* the timestamp normalisation / sort / truncate post-processing
  (source lines 386-399),
* the Scrape Orchestrator control flow (`scrapeTweetsForQuery`,
  source lines 240-402), and
* the `max_tweets` handling of the request handler (source line 413).

DOM reads are embedded as record fields holding exactly the observations
the source queries (innerText of a selected element, attribute values,
element presence).  Browser-side effects (navigation, scrolling, delays,
logging, diagnostic files) have no influence on the data flow and are not
modelled, except that the one category the source does NOT guard - an
unguarded awaited browser operation rejecting between session creation
and return - is modelled by a single representative failure point (the
logged-in detection `page.evaluate`, source line 286, which is not
wrapped in any try/catch).

JS string primitives (`split`, `includes`, `trim`, `parseInt`, regexes)
are re-implemented on `List Char` by structural recursion so that every
definition evaluates inside the kernel.
-/

/- ----------------------------------------------------------------- -/
/- JS string primitives                                              -/
/- ----------------------------------------------------------------- -/

/-- Characters trimmed by `String.prototype.trim` / skipped by `parseInt`
(ASCII white space; the model restricts inputs to ASCII). -/
def isJsWs (c : Char) : Bool :=
  c = ' ' || c = '\t' || c = '\n' || c = '\r' || c = '\x0b' || c = '\x0c'

/-- `trim` on a character list. -/
def jsTrimList (cs : List Char) : List Char :=
  ((cs.dropWhile isJsWs).reverse.dropWhile isJsWs).reverse

/-- JS `s.trim()`. -/
def jsTrim (s : String) : String := String.mk (jsTrimList s.toList)

/-- Does `cs` start with `pat`? -/
def listStartsWith : List Char → List Char → Bool
  | _, [] => true
  | [], _ :: _ => false
  | c :: cs, d :: ds => c = d && listStartsWith cs ds

/-- Does `pat` occur somewhere in `cs`?  (JS `String.prototype.includes`
for a non-empty pattern; checks every suffix.) -/
def listContainsSub (cs pat : List Char) : Bool :=
  match cs with
  | [] => listStartsWith [] pat
  | _ :: rest => listStartsWith cs pat || listContainsSub rest pat

/-- JS `s.includes(pat)`. -/
def strContains (s pat : String) : Bool := listContainsSub s.toList pat.toList

/-- JS `s.split(sep)` for a single-character separator. -/
def splitChar : List Char → Char → List (List Char)
  | [], _ => [[]]
  | c :: cs, sep =>
    if c = sep then [] :: splitChar cs sep
    else
      match splitChar cs sep with
      | [] => [[c]]
      | seg :: rest => (c :: seg) :: rest

/-- JS `s.split(sep)[0]` for a single-character separator: the characters
before the first occurrence of `sep`. -/
def takeUntilChar (cs : List Char) (sep : Char) : List Char :=
  cs.takeWhile (fun c => c ≠ sep)

/-- JS `s.replace(c, '')` with a single-character string pattern: removes
the first occurrence only. -/
def removeFirstChar : List Char → Char → List Char
  | [], _ => []
  | c :: cs, x => if c = x then cs else c :: removeFirstChar cs x

/-- Numeric value of a non-empty all-digit character list (the digit part
of JS `parseInt(s, 10)`). -/
def digitsToNat (cs : List Char) : Nat :=
  cs.foldl (fun n c => n * 10 + (c.toNat - 48)) 0

/-- JS `parseInt(s, 10)`: skip leading white space, one optional sign, the
longest digit run; `none` models `NaN` (no digits). -/
def jsParseInt10 (s : String) : Option Int :=
  let cs := s.toList.dropWhile isJsWs
  match cs with
  | '-' :: r =>
    let ds := r.takeWhile Char.isDigit
    if ds = [] then none else some (-(digitsToNat ds : Int))
  | '+' :: r =>
    let ds := r.takeWhile Char.isDigit
    if ds = [] then none else some (digitsToNat ds : Int)
  | r =>
    let ds := r.takeWhile Char.isDigit
    if ds = [] then none else some (digitsToNat ds : Int)

/- ----------------------------------------------------------------- -/
/- Data model: Item (a collected post)                               -/
/- ----------------------------------------------------------------- -/

/-- One collected post, exactly the object pushed at source lines 219-227.
`likes` is `some n` for a JS number `n` and `none` for `NaN` (the only
non-integer value the `likes` computation can produce). -/
structure Tweet where
  displayName : String
  handle : String
  text : String
  link : String
  likes : Option Nat
  verified : Bool
  timestamp : Option String
deriving DecidableEq, Repr

/- ----------------------------------------------------------------- -/
/- Page Extractor (extractTweetsFromPage, lines 125-235)             -/
/- ----------------------------------------------------------------- -/

/-- An `a[href]` element inside an article, with the observations the
extractor reads from it.  `href` is the raw attribute value (may be "",
which is falsy in JS).  `divSpanText`/`spanText` are the innerText of
`querySelector('div span')` / `querySelector('span')` under the anchor
(`none` when no such element).  `ariaLabel`/`title` are attribute values
(`none` when the attribute is absent; `getAttribute` returns null). -/
structure Anchor where
  href : String
  divSpanText : Option String
  spanText : Option String
  ariaLabel : Option String
  title : Option String
deriving DecidableEq, Repr

/-- The designated like control (`[data-testid="like"]`). -/
structure LikeCtl where
  ariaLabel : Option String
  innerText : String
deriving DecidableEq, Repr

/-- The `time` element of an article. -/
structure TimeEl where
  datetime : Option String
  innerText : String
deriving DecidableEq, Repr

/-- A candidate post container (`article`), as the tuple of DOM
observations the extractor performs on it.  `tweetTextEl` is the
innerText of `[data-testid="tweetText"]` (`none` when the element is
absent).  `anchors` is `querySelectorAll('a[href]')` in document order.
`headerSpanText` is the innerText of the first `div[dir="auto"] span`.
`broken` models the per-candidate try/catch of lines 130-231: a candidate
whose DOM reads throw is skipped and extraction continues. -/
structure Article where
  tweetTextEl : Option String
  anchors : List Anchor
  headerSpanText : Option String
  likeCtl : Option LikeCtl
  verifiedBadge : Bool
  timeEl : Option TimeEl
  innerText : String
  broken : Bool
deriving DecidableEq, Repr

/-- Lines 132-133: `textEl ? textEl.innerText.trim() : ''`. -/
def articleText (art : Article) : String := jsTrim (art.tweetTextEl.getD "")

/-- Lines 136-137: the first anchor whose href contains "/status/", and
the permalink `'https://twitter.com' + href`; `''` when none. -/
def articleLink (art : Article) : String :=
  match art.anchors.find? (fun an => strContains an.href "/status/") with
  | some sa => "https://twitter.com" ++ sa.href
  | none => ""

/-- Lines 143-156: the profile-anchor loop.  Skips falsy hrefs and hrefs
containing "/status/"; picks the first anchor whose path (before any
query string) has exactly one non-empty `/`-segment. -/
def profileAnchorLoop : List Anchor → Option Anchor
  | [] => none
  | a :: rest =>
    if a.href = "" then profileAnchorLoop rest
    else if strContains a.href "/status/" then profileAnchorLoop rest
    else
      let cleaned := takeUntilChar a.href.toList '?'
      let parts := (splitChar cleaned '/').filter (fun seg => seg ≠ [])
      if parts.length = 1 then some a else profileAnchorLoop rest

/-- The regex `/twitter\.com\/[^\/]+$/` tested at one suffix: the suffix
starts with "twitter.com/" and the remainder is non-empty and
slash-free (hence runs to the end of the string). -/
def twitterProfileAt (suf : List Char) : Bool :=
  listStartsWith suf "twitter.com/".toList &&
    (let rest := suf.drop 12
     (!rest.isEmpty) && !(rest.contains '/'))

/-- `/twitter\.com\/[^\/]+$/.test(href)`: some suffix matches. -/
def twitterProfileTest : List Char → Bool
  | [] => false
  | c :: cs => twitterProfileAt (c :: cs) || twitterProfileTest cs

/-- Lines 141-163: profile anchor = loop result, else the first anchor
matching the `twitter.com/<segment>` regex, else none. -/
def findProfileAnchor (anchors : List Anchor) : Option Anchor :=
  match profileAnchorLoop anchors with
  | some a => some a
  | none => anchors.find? (fun an => twitterProfileTest an.href.toList)

/-- Lines 171-178: handle from the profile anchor's href: strip an
`https?://(www.)?twitter.com` origin, query string and fragment, a
leading slash; then the first path segment with its first "@" removed,
trimmed. -/
def extractHandle (href0 : String) : String :=
  let href1 :=
    if href0.startsWith "https://www.twitter.com" then href0.drop 23
    else if href0.startsWith "http://www.twitter.com" then href0.drop 22
    else if href0.startsWith "https://twitter.com" then href0.drop 19
    else if href0.startsWith "http://twitter.com" then href0.drop 18
    else href0
  let href2 := takeUntilChar (takeUntilChar href1.toList '?') '#'
  let href3 := match href2 with
    | '/' :: r => r
    | r => r
  if href3 = [] then ""
  else jsTrim (String.mk (removeFirstChar (takeUntilChar href3 '/') '@'))

/-- Line 181: `profileAnchor.querySelector('div span') ||
profileAnchor.querySelector('span')` - the element, by presence. -/
def anchorNameSpan (a : Anchor) : Option String :=
  match a.divSpanText with
  | some s => some s
  | none => a.spanText

/-- Lines 191-193: `aria-label` then `title`, each trimmed, "" falsy. -/
def anchorAttrName (a : Anchor) : String :=
  match a.ariaLabel with
  | some al => if al ≠ "" then jsTrim al else
      (match a.title with
       | some t => if t ≠ "" then jsTrim t else ""
       | none => "")
  | none =>
      match a.title with
      | some t => if t ≠ "" then jsTrim t else ""
      | none => ""

/-- Lines 186-193: header-span fallback, then attribute fallbacks. -/
def anchorDisplayFallback (art : Article) (a : Anchor) : String :=
  match art.headerSpanText with
  | some h => if h ≠ "" ∧ jsTrim h ≠ "" then jsTrim h else anchorAttrName a
  | none => anchorAttrName a

/-- Lines 181-194: display name when a profile anchor was found. -/
def anchorDisplayName (art : Article) (a : Anchor) : String :=
  match anchorNameSpan a with
  | some s => if s ≠ "" ∧ jsTrim s ≠ "" then jsTrim s else anchorDisplayFallback art a
  | none => anchorDisplayFallback art a

/-- Lines 196-201: regex `/@([A-Za-z0-9_]{1,15})/` - the first `@`
followed by at least one word character; capture up to 15 of them. -/
def isWordChar (c : Char) : Bool := c.isAlpha || c.isDigit || c = '_'

/-- First `@handle`-shaped token in a character list. -/
def findAtHandle : List Char → Option String
  | [] => none
  | '@' :: rest =>
    let run := rest.takeWhile isWordChar
    if run.isEmpty then findAtHandle rest else some (String.mk (run.take 15))
  | _ :: rest => findAtHandle rest

/-- Lines 169-202: handle of an article. -/
def articleHandle (art : Article) : String :=
  match findProfileAnchor art.anchors with
  | some a => extractHandle a.href
  | none =>
    match findAtHandle art.innerText.toList with
    | some h => h
    | none => ""

/-- Lines 169-202: display name of an article. -/
def articleDisplayName (art : Article) : String :=
  match findProfileAnchor art.anchors with
  | some a => anchorDisplayName art a
  | none => art.headerSpanText.getD ""

/-- Line 208: `likeBtn.getAttribute('aria-label') || likeBtn.innerText
|| ''` ("" falsy collapses the last step). -/
def likeText (lc : LikeCtl) : String :=
  match lc.ariaLabel with
  | some al => if al ≠ "" then al else lc.innerText
  | none => lc.innerText

/-- Regex `/[\d,]+/`: the first maximal run of digits and commas. -/
def isDigitOrComma (c : Char) : Bool := c.isDigit || c = ','

/-- First digit/comma run of a character list (`none` when no character
of the class occurs). -/
def firstDigitCommaRun : List Char → Option (List Char)
  | [] => none
  | c :: rest =>
    if isDigitOrComma c then some (c :: rest.takeWhile isDigitOrComma)
    else firstDigitCommaRun rest

/-- Lines 209-210 applied to a found run: strip all commas, then
`parseInt(..., 10)`; `parseInt('') = NaN` (modelled `none`) when the
run was all commas. -/
def likesOfRun : Option (List Char) → Option Nat
  | none => some 0
  | some run =>
    let ds := run.filter (fun c => c ≠ ',')
    if ds = [] then none else some (digitsToNat ds)

/-- Lines 206-211 given the (optional) like control. -/
def likesOfCtl : Option LikeCtl → Option Nat
  | none => some 0
  | some lc => likesOfRun (firstDigitCommaRun (likeText lc).toList)

/-- Lines 204-211: like count.  `likes` starts at 0 and is reassigned
only when the control exists and its text has a digit/comma run. -/
def likesOf (art : Article) : Option Nat := likesOfCtl art.likeCtl

/-- Lines 214-216: `datetime` attribute, else innerText, else null, ""
falsy at each step. -/
def timestampOf (art : Article) : Option String :=
  match art.timeEl with
  | none => none
  | some te =>
    match te.datetime with
    | some d => if d ≠ "" then some d
        else if te.innerText ≠ "" then some te.innerText else none
    | none => if te.innerText ≠ "" then some te.innerText else none

/-- Lines 129-232: process one candidate article.  A `broken` candidate
(whose DOM reads throw) is skipped by the per-candidate catch; otherwise
the item is pushed iff both text and link are non-empty (line 218). -/
def extractArticle (art : Article) : Option Tweet :=
  if art.broken then none
  else if articleText art ≠ "" ∧ articleLink art ≠ "" then
    some ⟨articleDisplayName art, articleHandle art, articleText art,
          articleLink art, likesOf art, art.verifiedBadge, timestampOf art⟩
  else none

/-- Lines 125-235: `extractTweetsFromPage` over a document snapshot (the
list of `article` elements in document order). -/
def extractTweetsFromPage (doc : List Article) : List Tweet :=
  doc.filterMap extractArticle

/- ----------------------------------------------------------------- -/
/- Collection Loop merge (lines 352-356)                             -/
/- ----------------------------------------------------------------- -/

/-- Keys of a JS `Map` modelled as an association list in insertion
order. -/
def mapKeys (m : List (String × Tweet)) : List String := m.map Prod.fst

/-- `Map.prototype.set`: an existing key keeps its position and gets the
new value; a new key is appended. -/
def mapSet (m : List (String × Tweet)) (k : String) (v : Tweet) :
    List (String × Tweet) :=
  if k ∈ mapKeys m then m.map (fun p => if p.1 = k then (k, v) else p)
  else m ++ [(k, v)]

/-- Line 352: `new Map(tweets.map(t => [t.link, t]))`. -/
def buildMap (ts : List Tweet) : List (String × Tweet) :=
  ts.foldl (fun m t => mapSet m t.link t) []

/-- Lines 353-355: `newTweets.forEach(t => { if (t.link && !map.has(t.link))
map.set(t.link, t); })`. -/
def addAbsent (m : List (String × Tweet)) (ts : List Tweet) :
    List (String × Tweet) :=
  ts.foldl (fun m t =>
    if t.link ≠ "" ∧ t.link ∉ mapKeys m then mapSet m t.link t else m) m

/-- Lines 352-356: one merge step of the Collection Loop.
`Array.from(map.values())` of the map built from the running list with
the new batch added under the first-occurrence guard. -/
def mergeTweets (tweets newTweets : List Tweet) : List Tweet :=
  (addAbsent (buildMap tweets) newTweets).map Prod.snd

/- ----------------------------------------------------------------- -/
/- Post-processing: normalise, sort, truncate (lines 386-399)        -/
/- ----------------------------------------------------------------- -/

/-- A tweet after the normalisation pass of lines 386-392.  The JS field
`timestamp_iso` is an ISO-8601 string or null; since `toISOString` is
injective and order-preserving on time values, the model carries the
time value in milliseconds (`none` = null). -/
structure RTweet where
  base : Tweet
  timestamp_iso : Option Int
deriving DecidableEq, Repr

/-- Lines 387-391: `t.timestamp ? new Date(t.timestamp).toISOString() :
null`, null on a parse failure (`toISOString` throws, caught).
`dateParse` is the behaviour of the JS `Date` constructor on strings:
`some v` = a valid date with time value `v` ms, `none` = Invalid Date.
An empty timestamp string is falsy and yields null directly. -/
def normalizeTweet (dateParse : String → Option Int) (t : Tweet) : RTweet :=
  ⟨t, match t.timestamp with
      | none => none
      | some s => if s = "" then none else dateParse s⟩

/-- Lines 394-395: the comparator key `a.timestamp_iso ?
new Date(a.timestamp_iso).getTime() : 0` - null maps to epoch 0. -/
def sortKey (t : RTweet) : Int :=
  match t.timestamp_iso with
  | some v => v
  | none => 0

/-- Stable insertion (earlier elements stay in front of equal keys). -/
def insertDesc (t : RTweet) : List RTweet → List RTweet
  | [] => [t]
  | u :: us => if sortKey u ≤ sortKey t then t :: u :: us else u :: insertDesc t us

/-- Lines 393-397: `tweets.sort((a, b) => tb - ta)`.
`Array.prototype.sort` is stable (ES2019; Node 18) and the comparator is
a consistent total preorder on `sortKey`, so the JS result is the unique
stable descending order; any stable sorting algorithm realises it.  The
model uses insertion sort. -/
def sortDesc : List RTweet → List RTweet
  | [] => []
  | t :: ts => insertDesc t (sortDesc ts)

/-- Lines 386-399: normalise, sort newest-first, `slice(0, maxTweets)`. -/
def postProcess (dateParse : String → Option Int) (tweets : List Tweet)
    (maxTweets : Nat) : List RTweet :=
  (sortDesc (tweets.map (normalizeTweet dateParse))).take maxTweets

/- ----------------------------------------------------------------- -/
/- Scrape Orchestrator and Collection Loop (lines 240-402)           -/
/- ----------------------------------------------------------------- -/

/-- A session cookie as far as the orchestrator's control flow is
concerned (its fields never influence any branch). -/
structure Cookie where
  name : String
  value : String
deriving DecidableEq, Repr

/-- Lines 254, 328, 375: `cookieArray && cookieArray.length` - cookies
were supplied iff the argument is a non-null, non-empty array. -/
def hasCookies : Option (List Cookie) → Bool
  | none => false
  | some l => l.length != 0

/-- The environment of one scrape run: every page observation the
orchestrator makes, indexed by loop iteration where repeated.
`loggedInEvalOk` models whether the unguarded `page.evaluate` of the
logged-in check (line 286) resolves; it is the representative of the
awaited browser operations the source does not wrap in try/catch.
`batch i` is the extractor result and `height i` the measured
`document.body.scrollHeight` at loop iteration `i`.  `budget` is
`MAX_SCROLL_ATTEMPTS` (default 12). -/
structure Env where
  cookieArray : Option (List Cookie)
  loggedInEvalOk : Bool
  loggedIn : Bool
  blockedImmediately : Bool
  blockedFinal : Bool
  batch : Nat → List Tweet
  height : Nat → Nat
  dateParse : String → Option Int
  budget : Nat

/-- The loop state of lines 345-347: `tweets`, `scrollAttempts`,
`lastHeight`, plus the iteration index used to address the environment's
per-iteration observations. -/
structure LoopState where
  tweets : List Tweet
  scrollAttempts : Nat
  lastHeight : Nat
  iter : Nat
deriving Repr

/-- Line 345-347 initial state. -/
def initLoopState : LoopState := ⟨[], 0, 0, 0⟩

/-- Line 349 loop guard: `tweets.length < maxTweets && scrollAttempts <
MAX_SCROLL_ATTEMPTS`. -/
def loopGuard (m budget : Nat) (st : LoopState) : Bool :=
  st.tweets.length < m && st.scrollAttempts < budget

/-- Lines 350-369, one iteration body.  `.inl` is the `break` of line 358
(enough items after the merge); `.inr` continues after the height
measurement and stagnation-counter update of lines 360-366. -/
def loopBody (env : Env) (m : Nat) (st : LoopState) : LoopState ⊕ LoopState :=
  let merged := mergeTweets st.tweets (env.batch st.iter)
  if m ≤ merged.length then
    Sum.inl ⟨merged, st.scrollAttempts, st.lastHeight, st.iter + 1⟩
  else
    if env.height st.iter = st.lastHeight then
      Sum.inr ⟨merged, st.scrollAttempts + 1, st.lastHeight, st.iter + 1⟩
    else
      Sum.inr ⟨merged, 0, env.height st.iter, st.iter + 1⟩

/-- Lines 349-370: the while loop, fuel-indexed (the source loop need not
terminate when the height keeps changing; `none` = still running after
`fuel` iterations). -/
def runLoop (env : Env) (m : Nat) : Nat → LoopState → Option LoopState
  | 0, st => if loopGuard m env.budget st then none else some st
  | fuel + 1, st =>
    if loopGuard m env.budget st then
      match loopBody env m st with
      | Sum.inl done => some done
      | Sum.inr st' => runLoop env m fuel st'
    else some st

/-- Outcome of a run: normal return value, a thrown error with
`code === 'LOGIN_REQUIRED'` (carrying the message of the throw site), or
an uncaught exception propagating out of an unguarded await. -/
inductive Outcome where
  | ok (tweets : List RTweet)
  | loginRequired (msg : String)
  | crash
deriving DecidableEq, Repr

/-- Message of the throw at line 308. -/
def loginNotDetectedMsg : String :=
  "Login not detected after applying cookies. Check COOKIE_JSON or cookie.json; include auth_token and ct0 and ensure domain is .x.com. Saved debug files."

/-- Message of the throw at line 330. -/
def searchBlockedMsg : String :=
  "Twitter returned a login/blocked page on search. Provide COOKIE_JSON or cookie.json (logged-in cookies) to continue."

/-- Message of the throw at line 377. -/
def finalBlockedMsg : String :=
  "After navigation, page appears blocked or requires login. Provide valid cookies."

/-- What a run did: its outcome, whether `browser.close()` ran before the
run ended, whether the search navigation (line 322) was reached, and
whether the Collection Loop (line 349) was reached. -/
structure RunTrace where
  outcome : Outcome
  browserClosed : Bool
  searchNavigated : Bool
  loopRan : Bool
deriving Repr

/-- Lines 240-402: `scrapeTweetsForQuery`.  Launch, cookie injection and
the two navigations either succeed or are caught and logged; the control
flow is decided by the observations in `env`.  `none` = the loop is
still running after `fuel` iterations.
Note there is no try/finally around the body: `browser.close()` runs
only at lines 310, 329, 376 and 400, so a rejecting unguarded await
(modelled by `loggedInEvalOk = false` for the evaluate at line 286)
propagates without closing the browser. -/
def scrape (env : Env) (m : Nat) (fuel : Nat) : Option RunTrace :=
  if env.loggedInEvalOk then
    if env.loggedIn then
      if env.blockedImmediately && !(hasCookies env.cookieArray) then
        some ⟨Outcome.loginRequired searchBlockedMsg, true, true, false⟩
      else
        match runLoop env m fuel initLoopState with
        | none => none
        | some st =>
          if st.tweets.length = 0 && env.blockedFinal && !(hasCookies env.cookieArray) then
            some ⟨Outcome.loginRequired finalBlockedMsg, true, true, true⟩
          else
            some ⟨Outcome.ok (postProcess env.dateParse st.tweets m), true, true, true⟩
    else
      some ⟨Outcome.loginRequired loginNotDetectedMsg, true, false, false⟩
  else
    some ⟨Outcome.crash, false, false, false⟩

/- ----------------------------------------------------------------- -/
/- Request handler: max_tweets (lines 410-415)                       -/
/- ----------------------------------------------------------------- -/

/-- A JSON body field value, as far as `||` chaining and `parseInt`
observe it.  Numbers are restricted to integers (JSON bodies with
fractional counts are outside the model). -/
inductive JsVal where
  | str (s : String)
  | num (n : Int)
  | boolean (b : Bool)
  | nullv
deriving DecidableEq, Repr

/-- JS truthiness of a field value ("" and 0 are falsy). -/
def jsTruthy : JsVal → Bool
  | JsVal.str s => s ≠ ""
  | JsVal.num n => n != 0
  | JsVal.boolean b => b
  | JsVal.nullv => false

/-- JS `String(v)` on a field value (`parseInt` coerces its argument). -/
def jsToString : JsVal → String
  | JsVal.str s => s
  | JsVal.num n => toString n
  | JsVal.boolean b => if b then "true" else "false"
  | JsVal.nullv => "null"

/-- `body.max_tweets_per_run || body.max_tweets || 1` (absent fields are
undefined, hence falsy). -/
def chain2 (ptr mt : Option JsVal) : JsVal :=
  match ptr with
  | some v =>
    if jsTruthy v then v
    else
      match mt with
      | some w => if jsTruthy w then w else JsVal.num 1
      | none => JsVal.num 1
  | none =>
    match mt with
    | some w => if jsTruthy w then w else JsVal.num 1
    | none => JsVal.num 1

/-- Line 413: `Math.max(1, parseInt(body.max_tweets_per_run ||
body.max_tweets || 1, 10))`; `none` models `NaN` (`Math.max` with a NaN
argument is NaN). -/
def maxTweetsOf (ptr mt : Option JsVal) : Option Int :=
  match jsParseInt10 (jsToString (chain2 ptr mt)) with
  | none => none
  | some v => some (max 1 v)

/- ----------------------------------------------------------------- -/
/- Lemmas: the JS Map model                                          -/
/- ----------------------------------------------------------------- -/

/-- Well-formedness of the modelled map: every entry is keyed by its
tweet's link, and keys are unique (as in a JS `Map`). -/
def mapOk (m : List (String × Tweet)) : Prop :=
  (∀ p ∈ m, p.2.link = p.1) ∧ (mapKeys m).Nodup

lemma mapKeys_overwrite (k : String) (v : Tweet) (m : List (String × Tweet)) :
    mapKeys (m.map (fun p => if p.1 = k then (k, v) else p)) = mapKeys m := by
  unfold mapKeys
  rw [List.map_map]
  refine List.map_congr_left ?_
  intro p _
  by_cases h : p.1 = k <;> simp [h]

lemma mapKeys_mapSet (m : List (String × Tweet)) (k : String) (v : Tweet) :
    mapKeys (mapSet m k v) =
      if k ∈ mapKeys m then mapKeys m else mapKeys m ++ [k] := by
  unfold mapSet
  by_cases h : k ∈ mapKeys m
  · rw [if_pos h, if_pos h]
    exact mapKeys_overwrite k v m
  · rw [if_neg h, if_neg h]
    unfold mapKeys
    simp

lemma mapOk_mapSet {m : List (String × Tweet)} {k : String} {v : Tweet}
    (hm : mapOk m) (hv : v.link = k) : mapOk (mapSet m k v) := by
  obtain ⟨hlink, hnd⟩ := hm
  constructor
  · intro p hp
    unfold mapSet at hp
    by_cases h : k ∈ mapKeys m
    · rw [if_pos h] at hp
      obtain ⟨q, hq, rfl⟩ := List.mem_map.mp hp
      by_cases hqk : q.1 = k
      · simp [hqk, hv]
      · simpa [hqk] using hlink q hq
    · rw [if_neg h] at hp
      rcases List.mem_append.mp hp with hp | hp
      · exact hlink p hp
      · simp only [List.mem_singleton] at hp
        simp [hp, hv]
  · rw [mapKeys_mapSet]
    by_cases h : k ∈ mapKeys m
    · simpa [h] using hnd
    · rw [if_neg h]
      rw [List.nodup_append]
      refine ⟨hnd, List.nodup_singleton k, ?_⟩
      intro a ha hak
      rw [List.mem_singleton] at hak
      subst hak
      exact h ha

lemma mapOk_foldl_mapSet (ts : List Tweet) :
    ∀ m, mapOk m → mapOk (ts.foldl (fun m t => mapSet m t.link t) m) := by
  induction ts with
  | nil => intro m hm; simpa using hm
  | cons t ts ih =>
    intro m hm
    rw [List.foldl_cons]
    exact ih _ (mapOk_mapSet hm rfl)

lemma mapOk_buildMap (ts : List Tweet) : mapOk (buildMap ts) :=
  mapOk_foldl_mapSet ts [] ⟨by simp, by simp [mapKeys]⟩

lemma mapOk_addAbsent (ts : List Tweet) :
    ∀ m, mapOk m → mapOk (addAbsent m ts) := by
  induction ts with
  | nil => intro m hm; simpa [addAbsent] using hm
  | cons t ts ih =>
    intro m hm
    unfold addAbsent
    rw [List.foldl_cons]
    by_cases h : t.link ≠ "" ∧ t.link ∉ mapKeys m
    · rw [if_pos h]
      exact ih _ (mapOk_mapSet hm rfl)
    · rw [if_neg h]
      exact ih _ hm

lemma addAbsent_spec (ts : List Tweet) :
    ∀ m, ∃ r, addAbsent m ts = m ++ r ∧
      ∀ p ∈ r, p.2.link = p.1 ∧ p.1 ∉ mapKeys m ∧ p.1 ≠ "" := by
  induction ts with
  | nil => intro m; exact ⟨[], by simp [addAbsent], by simp⟩
  | cons t ts ih =>
    intro m
    unfold addAbsent
    rw [List.foldl_cons]
    by_cases h : t.link ≠ "" ∧ t.link ∉ mapKeys m
    · rw [if_pos h]
      have hset : mapSet m t.link t = m ++ [(t.link, t)] := by
        unfold mapSet; rw [if_neg h.2]
      rw [hset]
      obtain ⟨r', hr', hp'⟩ := ih (m ++ [(t.link, t)])
      refine ⟨(t.link, t) :: r', ?_, ?_⟩
      · rw [show addAbsent (m ++ [(t.link, t)]) ts =
              ts.foldl (fun m t => if t.link ≠ "" ∧ t.link ∉ mapKeys m then mapSet m t.link t else m) (m ++ [(t.link, t)]) from rfl] at hr'
        rw [hr']
        simp
      · intro p hp
        rcases List.mem_cons.mp hp with rfl | hp
        · exact ⟨rfl, h.2, h.1⟩
        · obtain ⟨h1, h2, h3⟩ := hp' p hp
          refine ⟨h1, fun hk => h2 ?_, h3⟩
          unfold mapKeys at hk ⊢
          simp only [List.map_append]
          exact List.mem_append.mpr (Or.inl hk)
    · rw [if_neg h]
      exact ih m

lemma mapKeys_subset_addAbsent (ts : List Tweet) (m : List (String × Tweet)) :
    mapKeys m ⊆ mapKeys (addAbsent m ts) := by
  obtain ⟨r, hr, -⟩ := addAbsent_spec ts m
  rw [hr]
  unfold mapKeys
  simp only [List.map_append]
  exact List.subset_append_left _ _

lemma mem_mapKeys_addAbsent (ts : List Tweet) :
    ∀ m, ∀ t ∈ ts, t.link ≠ "" → t.link ∈ mapKeys (addAbsent m ts) := by
  induction ts with
  | nil => intro m t ht; cases ht
  | cons u ts ih =>
    intro m t ht hne
    have hstep : addAbsent m (u :: ts) =
        addAbsent (if u.link ≠ "" ∧ u.link ∉ mapKeys m then mapSet m u.link u else m) ts := by
      unfold addAbsent
      rw [List.foldl_cons]
    rcases List.mem_cons.mp ht with rfl | ht
    · rw [hstep]
      refine mapKeys_subset_addAbsent ts _ ?_
      by_cases h : t.link ≠ "" ∧ t.link ∉ mapKeys m
      · rw [if_pos h]
        rw [mapKeys_mapSet, if_neg h.2]
        simp
      · rw [if_neg h]
        rcases not_and_or.mp h with h1 | h2
        · exact absurd hne h1
        · simpa using h2
    · rw [hstep]
      exact ih _ t ht hne

lemma addAbsent_id (ts : List Tweet) :
    ∀ m, (∀ t ∈ ts, t.link ≠ "" → t.link ∈ mapKeys m) → addAbsent m ts = m := by
  induction ts with
  | nil => intro m _; simp [addAbsent]
  | cons t ts ih =>
    intro m hmem
    unfold addAbsent
    rw [List.foldl_cons]
    have hguard : ¬(t.link ≠ "" ∧ t.link ∉ mapKeys m) := by
      by_cases hne : t.link = ""
      · simp [hne]
      · intro hc
        exact hc.2 (hmem t (List.mem_cons_self t ts) hne)
    rw [if_neg hguard]
    exact ih m (fun u hu => hmem u (List.mem_cons_of_mem t hu))

lemma foldl_mapSet_fresh (ts : List Tweet) :
    ∀ m, (∀ t ∈ ts, t.link ∉ mapKeys m) →
      (ts.map (fun t => t.link)).Nodup →
      ts.foldl (fun m t => mapSet m t.link t) m = m ++ ts.map (fun t => (t.link, t)) := by
  induction ts with
  | nil => intro m _ _; simp
  | cons t ts ih =>
    intro m hfresh hnd
    rw [List.foldl_cons]
    have hset : mapSet m t.link t = m ++ [(t.link, t)] := by
      unfold mapSet
      rw [if_neg (hfresh t (List.mem_cons_self t ts))]
    rw [hset]
    simp only [List.map_cons, List.nodup_cons] at hnd
    have hfresh' : ∀ u ∈ ts, u.link ∉ mapKeys (m ++ [(t.link, t)]) := by
      intro u hu
      unfold mapKeys
      simp only [List.map_append, List.mem_append]
      rintro (hk | hk)
      · exact hfresh u (List.mem_cons_of_mem t hu) hk
      · simp only [List.map_cons, List.map_nil, List.mem_singleton] at hk
        exact hnd.1 (hk ▸ List.mem_map_of_mem (fun t => t.link) hu)
    rw [ih _ hfresh' hnd.2]
    simp

lemma buildMap_eq_pairs (ts : List Tweet)
    (hnd : (ts.map (fun t => t.link)).Nodup) :
    buildMap ts = ts.map (fun t => (t.link, t)) := by
  unfold buildMap
  simpa using foldl_mapSet_fresh ts [] (by simp [mapKeys]) hnd

lemma pairs_map_snd (ts : List Tweet) :
    (ts.map (fun t => (t.link, t))).map Prod.snd = ts := by
  induction ts with
  | nil => rfl
  | cons t ts ih => simp [ih]

lemma snd_map_pairs (m : List (String × Tweet))
    (h : ∀ p ∈ m, p.2.link = p.1) :
    (m.map Prod.snd).map (fun t => (t.link, t)) = m := by
  induction m with
  | nil => rfl
  | cons p m ih =>
    simp only [List.map_cons]
    rw [h p (List.mem_cons_self p m), ih (fun q hq => h q (List.mem_cons_of_mem p hq))]

lemma links_eq_mapKeys (m : List (String × Tweet))
    (h : ∀ p ∈ m, p.2.link = p.1) :
    (m.map Prod.snd).map (fun t => t.link) = mapKeys m := by
  induction m with
  | nil => rfl
  | cons p m ih =>
    simp only [List.map_cons, mapKeys]
    rw [h p (List.mem_cons_self p m)]
    have := ih (fun q hq => h q (List.mem_cons_of_mem p hq))
    unfold mapKeys at this
    rw [this]

lemma mapKeys_pairs (ts : List Tweet) :
    mapKeys (ts.map (fun t => (t.link, t))) = ts.map (fun t => t.link) := by
  unfold mapKeys
  rw [List.map_map]
  rfl

/-- The merged list always has pairwise-distinct permalinks. -/
lemma mergeTweets_links_nodup (tweets new : List Tweet) :
    ((mergeTweets tweets new).map (fun t => t.link)).Nodup := by
  have hok : mapOk (addAbsent (buildMap tweets) new) :=
    mapOk_addAbsent new _ (mapOk_buildMap tweets)
  unfold mergeTweets
  rw [links_eq_mapKeys _ hok.1]
  exact hok.2

/-- First occurrence wins: merging extends the running list and never
replaces an existing item. -/
lemma mergeTweets_append (tweets new : List Tweet)
    (hnd : (tweets.map (fun t => t.link)).Nodup) :
    ∃ rest, mergeTweets tweets new = tweets ++ rest ∧
      ∀ t ∈ rest, t.link ∉ tweets.map (fun t => t.link) := by
  unfold mergeTweets
  rw [buildMap_eq_pairs tweets hnd]
  obtain ⟨r, hr, hp⟩ := addAbsent_spec new (tweets.map (fun t => (t.link, t)))
  rw [hr]
  refine ⟨r.map Prod.snd, ?_, ?_⟩
  · simp only [List.map_append]
    rw [pairs_map_snd]
  · intro t ht
    obtain ⟨p, hpr, rfl⟩ := List.mem_map.mp ht
    obtain ⟨h1, h2, _⟩ := hp p hpr
    rw [h1]
    rw [mapKeys_pairs] at h2
    exact h2

/-- Merging the same batch twice changes nothing. -/
lemma mergeTweets_idem (tweets new : List Tweet) :
    mergeTweets (mergeTweets tweets new) new = mergeTweets tweets new := by
  have hok : mapOk (addAbsent (buildMap tweets) new) :=
    mapOk_addAbsent new _ (mapOk_buildMap tweets)
  set M := addAbsent (buildMap tweets) new with hM
  have hlinks : ((M.map Prod.snd).map (fun t => t.link)).Nodup := by
    rw [links_eq_mapKeys _ hok.1]; exact hok.2
  have hbuild : buildMap (M.map Prod.snd) = M := by
    rw [buildMap_eq_pairs _ hlinks, snd_map_pairs _ hok.1]
  have hadd : addAbsent M new = M := by
    refine addAbsent_id new M ?_
    intro t ht hne
    exact mem_mapKeys_addAbsent new (buildMap tweets) t ht hne
  show (addAbsent (buildMap (M.map Prod.snd)) new).map Prod.snd = M.map Prod.snd
  rw [hbuild, hadd]

/-- The loop invariant: every state the Collection Loop can stop in,
starting from the empty initial state, has pairwise-distinct
permalinks. -/
lemma runLoop_links_nodup (env : Env) (m : Nat) :
    ∀ (fuel : Nat) (st : LoopState), (st.tweets.map (fun t => t.link)).Nodup →
      ∀ st', runLoop env m fuel st = some st' →
        (st'.tweets.map (fun t => t.link)).Nodup := by
  intro fuel
  induction fuel with
  | zero =>
    intro st hst st' h
    unfold runLoop at h
    by_cases hg : loopGuard m env.budget st
    · rw [if_pos hg] at h; cases h
    · rw [if_neg hg] at h
      cases h
      exact hst
  | succ fuel ih =>
    intro st hst st' h
    unfold runLoop at h
    by_cases hg : loopGuard m env.budget st
    · rw [if_pos hg] at h
      unfold loopBody at h
      by_cases hb : m ≤ (mergeTweets st.tweets (env.batch st.iter)).length
      · rw [if_pos hb] at h
        simp only at h
        cases h
        exact mergeTweets_links_nodup st.tweets (env.batch st.iter)
      · rw [if_neg hb] at h
        by_cases hh : env.height st.iter = st.lastHeight
        · rw [if_pos hh] at h
          exact ih _ (mergeTweets_links_nodup st.tweets (env.batch st.iter)) st' h
        · rw [if_neg hh] at h
          exact ih _ (mergeTweets_links_nodup st.tweets (env.batch st.iter)) st' h
    · rw [if_neg hg] at h
      cases h
      exact hst

/- ----------------------------------------------------------------- -/
/- Lemmas: stable descending sort                                    -/
/- ----------------------------------------------------------------- -/

lemma insertDesc_perm (t : RTweet) : ∀ s, (insertDesc t s).Perm (t :: s) := by
  intro s
  induction s with
  | nil => exact List.Perm.refl _
  | cons u us ih =>
    unfold insertDesc
    by_cases h : sortKey u ≤ sortKey t
    · rw [if_pos h]
    · rw [if_neg h]
      exact (ih.cons u).trans (List.Perm.swap t u us)

lemma sortDesc_perm : ∀ l : List RTweet, (sortDesc l).Perm l := by
  intro l
  induction l with
  | nil => exact List.Perm.refl _
  | cons t ts ih =>
    unfold sortDesc
    exact (insertDesc_perm t (sortDesc ts)).trans (ih.cons t)

lemma mem_insertDesc {x t : RTweet} {s : List RTweet}
    (h : x ∈ insertDesc t s) : x = t ∨ x ∈ s := by
  have := (insertDesc_perm t s).mem_iff.mp h
  simpa using this

lemma insertDesc_pairwise (t : RTweet) :
    ∀ s, s.Pairwise (fun a b => sortKey b ≤ sortKey a) →
      (insertDesc t s).Pairwise (fun a b => sortKey b ≤ sortKey a) := by
  intro s
  induction s with
  | nil => intro _; simp [insertDesc]
  | cons u us ih =>
    intro hp
    rw [List.pairwise_cons] at hp
    unfold insertDesc
    by_cases h : sortKey u ≤ sortKey t
    · rw [if_pos h]
      rw [List.pairwise_cons]
      refine ⟨?_, List.pairwise_cons.mpr hp⟩
      intro x hx
      rcases List.mem_cons.mp hx with rfl | hx
      · exact h
      · exact le_trans (hp.1 x hx) h
    · rw [if_neg h]
      rw [List.pairwise_cons]
      refine ⟨?_, ih hp.2⟩
      intro x hx
      rcases mem_insertDesc hx with rfl | hx
      · exact le_of_lt (lt_of_not_le h)
      · exact hp.1 x hx

lemma sortDesc_pairwise :
    ∀ l : List RTweet,
      (sortDesc l).Pairwise (fun a b => sortKey b ≤ sortKey a) := by
  intro l
  induction l with
  | nil => simp [sortDesc]
  | cons t ts ih =>
    unfold sortDesc
    exact insertDesc_pairwise t _ ih

lemma insertDesc_filter (k : Int) (t : RTweet) :
    ∀ s, (insertDesc t s).filter (fun u => sortKey u == k) =
      ((t :: s).filter (fun u => sortKey u == k)) := by
  intro s
  induction s with
  | nil => rfl
  | cons u us ih =>
    unfold insertDesc
    by_cases h : sortKey u ≤ sortKey t
    · rw [if_pos h]
    · rw [if_neg h]
      have hlt : sortKey t < sortKey u := lt_of_not_le h
      by_cases ht : sortKey t = k
      · have hu : (sortKey u == k) = false := by
          rw [beq_eq_false_iff_ne]
          omega
        simp only [List.filter_cons, hu, ih, ht, beq_self_eq_true, if_true, if_false,
          Bool.false_eq_true]
      · have ht' : (sortKey t == k) = false := by
          rw [beq_eq_false_iff_ne]
          exact ht
        simp only [List.filter_cons, ih, ht', if_false, Bool.false_eq_true]

/-- Stability: for each key value, the sorted list keeps elements with
that key in discovery order. -/
lemma sortDesc_filter (k : Int) :
    ∀ l : List RTweet,
      (sortDesc l).filter (fun u => sortKey u == k) =
        l.filter (fun u => sortKey u == k) := by
  intro l
  induction l with
  | nil => rfl
  | cons t ts ih =>
    unfold sortDesc
    rw [insertDesc_filter k t (sortDesc ts)]
    simp only [List.filter_cons, ih]

lemma sortDesc_length (l : List RTweet) : (sortDesc l).length = l.length :=
  (sortDesc_perm l).length_eq

/- ----------------------------------------------------------------- -/
/- Lemmas: the Collection Loop                                       -/
/- ----------------------------------------------------------------- -/

lemma loopGuard_false {m budget : Nat} {st : LoopState}
    (h : loopGuard m budget st = false) :
    m ≤ st.tweets.length ∨ budget ≤ st.scrollAttempts := by
  unfold loopGuard at h
  rcases Bool.and_eq_false_iff.mp h with h | h
  · left
    have := of_decide_eq_false h
    omega
  · right
    have := of_decide_eq_false h
    omega

/-- The loop can only stop in a state satisfying the negated guard:
enough items, or the stagnation budget reached. -/
lemma runLoop_done (env : Env) (m : Nat) :
    ∀ (fuel : Nat) (st st' : LoopState), runLoop env m fuel st = some st' →
      m ≤ st'.tweets.length ∨ env.budget ≤ st'.scrollAttempts := by
  intro fuel
  induction fuel with
  | zero =>
    intro st st' h
    unfold runLoop at h
    by_cases hg : loopGuard m env.budget st
    · rw [if_pos hg] at h; cases h
    · rw [if_neg hg] at h
      cases h
      exact loopGuard_false (Bool.eq_false_iff.mpr hg)
  | succ fuel ih =>
    intro st st' h
    unfold runLoop at h
    by_cases hg : loopGuard m env.budget st
    · rw [if_pos hg] at h
      unfold loopBody at h
      by_cases hb : m ≤ (mergeTweets st.tweets (env.batch st.iter)).length
      · rw [if_pos hb] at h
        simp only at h
        cases h
        left
        exact hb
      · rw [if_neg hb] at h
        by_cases hh : env.height st.iter = st.lastHeight
        · rw [if_pos hh] at h
          simp only at h
          exact ih _ _ h
        · rw [if_neg hh] at h
          simp only at h
          exact ih _ _ h
    · rw [if_neg hg] at h
      cases h
      exact loopGuard_false (Bool.eq_false_iff.mpr hg)

/-- Line 358: when the merge already satisfies `maxTweets`, the loop
breaks with the merged list and an untouched stagnation counter. -/
lemma loopBody_break (env : Env) (m : Nat) (st : LoopState)
    (hb : m ≤ (mergeTweets st.tweets (env.batch st.iter)).length) :
    loopBody env m st = Sum.inl ⟨mergeTweets st.tweets (env.batch st.iter),
      st.scrollAttempts, st.lastHeight, st.iter + 1⟩ := by
  unfold loopBody
  rw [if_pos hb]

/-- Lines 360-366: in a non-breaking iteration the stagnation counter is
incremented exactly when the measured height is unchanged, and reset to
zero (recording the new height) when it changed. -/
lemma loopBody_continue (env : Env) (m : Nat) (st : LoopState)
    (hb : (mergeTweets st.tweets (env.batch st.iter)).length < m) :
    loopBody env m st = Sum.inr ⟨mergeTweets st.tweets (env.batch st.iter),
      if env.height st.iter = st.lastHeight then st.scrollAttempts + 1 else 0,
      if env.height st.iter = st.lastHeight then st.lastHeight else env.height st.iter,
      st.iter + 1⟩ := by
  unfold loopBody
  rw [if_neg (not_le.mpr hb)]
  by_cases hh : env.height st.iter = st.lastHeight
  · rw [if_pos hh, if_pos hh, if_pos hh]
  · rw [if_neg hh, if_neg hh, if_neg hh]

/-- A guarded non-breaking iteration continues the loop in the successor
state. -/
lemma runLoop_step (env : Env) (m fuel : Nat) (st : LoopState)
    (hg : loopGuard m env.budget st = true) (st'' : LoopState)
    (hb : loopBody env m st = Sum.inr st'') :
    runLoop env m (fuel + 1) st = runLoop env m fuel st'' := by
  show (if loopGuard m env.budget st = true then
      match loopBody env m st with
      | Sum.inl done => some done
      | Sum.inr st' => runLoop env m fuel st'
    else some st) = runLoop env m fuel st''
  rw [if_pos hg, hb]

/-- A state failing the guard is returned unchanged (the loop returns
whatever was collected). -/
lemma runLoop_exit (env : Env) (m fuel : Nat) (st : LoopState)
    (hg : loopGuard m env.budget st = false) :
    runLoop env m fuel st = some st := by
  cases fuel with
  | zero =>
    unfold runLoop
    rw [if_neg (by simp [hg])]
  | succ fuel =>
    unfold runLoop
    rw [if_neg (by simp [hg])]

/- ----------------------------------------------------------------- -/
/- Lemmas: extractor                                                 -/
/- ----------------------------------------------------------------- -/

lemma firstDigitCommaRun_some {cs run : List Char}
    (h : firstDigitCommaRun cs = some run) :
    run ≠ [] ∧ ∀ c ∈ run, isDigitOrComma c := by
  induction cs with
  | nil => cases h
  | cons c rest ih =>
    unfold firstDigitCommaRun at h
    by_cases hc : isDigitOrComma c
    · rw [if_pos hc] at h
      cases h
      refine ⟨by simp, ?_⟩
      intro d hd
      rcases List.mem_cons.mp hd with rfl | hd
      · exact hc
      · exact List.mem_takeWhile_imp hd
    · rw [if_neg hc] at h
      exact ih h

/-- `likes` is `NaN` exactly when the like text has a digit/comma run
consisting entirely of commas (then `parseInt('')` runs). -/
lemma likesOf_none_iff (art : Article) :
    likesOf art = none ↔ ∃ lc, art.likeCtl = some lc ∧
      ∃ run, firstDigitCommaRun (likeText lc).toList = some run ∧
        run ≠ [] ∧ ∀ c ∈ run, c = ',' := by
  unfold likesOf
  cases hctl : art.likeCtl with
  | none => simp [likesOfCtl]
  | some lc =>
    simp only [likesOfCtl]
    cases hrun : firstDigitCommaRun (likeText lc).toList with
    | none =>
      have hrun' : firstDigitCommaRun (likeText lc).data = none := hrun
      simp [likesOfRun, hrun, hrun']
    | some run =>
      simp only [likesOfRun]
      by_cases hds : run.filter (fun c => c ≠ ',') = []
      · rw [if_pos hds]
        constructor
        · intro _
          refine ⟨lc, rfl, run, hrun, (firstDigitCommaRun_some hrun).1, ?_⟩
          intro c hc
          have h2 := List.filter_eq_nil_iff.mp hds c hc
          simpa using h2
        · intro _
          rfl
      · rw [if_neg hds]
        constructor
        · intro h
          cases h
        · rintro ⟨lc', hlc, run', hrun', -, hall⟩
          injection hlc with hlc
          subst hlc
          rw [hrun] at hrun'
          injection hrun' with hrun'
          subst hrun'
          refine absurd (List.filter_eq_nil_iff.mpr ?_) hds
          intro c hc
          simp [hall c hc]

/-- When the first digit/comma run contains a digit, the like count is
the parsed comma-stripped number (a non-negative integer). -/
lemma likesOf_digit {art : Article} {lc : LikeCtl} {run : List Char}
    (hctl : art.likeCtl = some lc)
    (hrun : firstDigitCommaRun (likeText lc).toList = some run)
    (hd : ∃ c ∈ run, c.isDigit) :
    likesOf art = some (digitsToNat (run.filter (fun c => c ≠ ','))) := by
  unfold likesOf
  rw [hctl]
  simp only [likesOfCtl]
  rw [hrun]
  have hne : run.filter (fun c => c ≠ ',') ≠ [] := by
    obtain ⟨c, hc, hdig⟩ := hd
    have hcomma : c ≠ ',' := by
      intro h
      subst h
      exact absurd hdig (by decide)
    exact List.ne_nil_of_mem (List.mem_filter.mpr ⟨hc, by simpa using hcomma⟩)
  simp only [likesOfRun]
  rw [if_neg hne]

/-- Without a like control, or without any digit/comma run in its text,
the like count defaults to 0. -/
lemma likesOf_default (art : Article)
    (h : art.likeCtl = none ∨ ∃ lc, art.likeCtl = some lc ∧
      firstDigitCommaRun (likeText lc).toList = none) :
    likesOf art = some 0 := by
  unfold likesOf
  rcases h with h | ⟨lc, hlc, hrun⟩
  · rw [h]
    rfl
  · rw [hlc]
    simp only [likesOfCtl]
    rw [hrun]
    rfl

/- ----------------------------------------------------------------- -/
/- Claims                                                            -/
/- ----------------------------------------------------------------- -/

/-- C1: for every run of the Collection Loop the collected item set has
unique permalinks, the first occurrence of a permalink is kept (the
merge only appends items whose permalink is new), merging the same
batch twice equals merging it once, and every state the loop can stop
in (from the empty initial state) has pairwise-distinct permalinks. -/
theorem c1_collection_merge (tweets new : List Tweet)
    (hnd : (tweets.map (fun t => t.link)).Nodup) :
    ((mergeTweets tweets new).map (fun t => t.link)).Nodup
    ∧ (∃ rest, mergeTweets tweets new = tweets ++ rest ∧
        ∀ t ∈ rest, t.link ∉ tweets.map (fun t => t.link))
    ∧ mergeTweets (mergeTweets tweets new) new = mergeTweets tweets new
    ∧ ∀ (env : Env) (m fuel : Nat) (st : LoopState),
        runLoop env m fuel initLoopState = some st →
          (st.tweets.map (fun t => t.link)).Nodup := by
  refine ⟨mergeTweets_links_nodup tweets new, mergeTweets_append tweets new hnd,
    mergeTweets_idem tweets new, ?_⟩
  intro env m fuel st h
  exact runLoop_links_nodup env m fuel initLoopState (by simp [initLoopState]) st h

def twC1a : Tweet := ⟨"", "", "a", "https://twitter.com/a/status/1", some 0, false, none⟩

def twC1b : Tweet := ⟨"", "", "b", "https://twitter.com/b/status/2", some 0, false, none⟩

/-- C1 witness at a concrete running list and batch. -/
theorem c1_collection_merge_witness :
    (([twC1a].map (fun t => t.link)).Nodup) ∧
    mergeTweets (mergeTweets [twC1a] [twC1a, twC1b]) [twC1a, twC1b] =
      mergeTweets [twC1a] [twC1a, twC1b] :=
  ⟨by decide, (c1_collection_merge [twC1a] [twC1a, twC1b] (by decide)).2.2.1⟩

/-- C3: a negative logged-in check aborts the run with the
LOGIN_REQUIRED error, whatever the cookies, and neither the search
navigation nor the Collection Loop is reached (and the browser is
closed on this path). -/
theorem c3_auth_check_fatal (env : Env) (m fuel : Nat)
    (h1 : env.loggedInEvalOk = true) (h2 : env.loggedIn = false) :
    scrape env m fuel =
      some ⟨Outcome.loginRequired loginNotDetectedMsg, true, false, false⟩ := by
  unfold scrape
  rw [h1, h2]
  simp

def envC3 : Env :=
  ⟨some [⟨"auth_token", "x"⟩], true, false, true, true,
   fun _ => [], fun _ => 0, fun _ => none, 12⟩

/-- C3 witness: cookies supplied, authentication still fails. -/
theorem c3_auth_check_fatal_witness :
    scrape envC3 5 3 =
      some ⟨Outcome.loginRequired loginNotDetectedMsg, true, false, false⟩ :=
  c3_auth_check_fatal envC3 5 3 rfl rfl

def envC4 : Env :=
  ⟨some [⟨"auth_token", "x"⟩], false, true, false, false,
   fun _ => [], fun _ => 0, fun _ => none, 12⟩

/-- C4 counterexample: when the unguarded logged-in evaluation (line
286) rejects, the exception propagates out of the run and
`browser.close()` never runs - an exit path on which the session
outlives the run, refuting the claim that every exit path closes the
session. -/
theorem c4_session_leak_cx :
    scrape envC4 1 5 = some ⟨Outcome.crash, false, false, false⟩ := rfl

/-- C4 amended: the session is closed on the normal return path and on
every LOGIN_REQUIRED abort (the paths with an explicit
`browser.close()`); only the uncaught-exception exit leaves it open. -/
theorem c4_session_close (env : Env) (m fuel : Nat) (tr : RunTrace)
    (h : scrape env m fuel = some tr) (hc : tr.outcome ≠ Outcome.crash) :
    tr.browserClosed = true := by
  unfold scrape at h
  by_cases h1 : env.loggedInEvalOk
  · rw [if_pos h1] at h
    by_cases h2 : env.loggedIn
    · rw [if_pos h2] at h
      by_cases h3 : (env.blockedImmediately && !hasCookies env.cookieArray : Bool)
      · rw [if_pos h3] at h
        cases h
        rfl
      · rw [if_neg h3] at h
        cases hrl : runLoop env m fuel initLoopState with
        | none =>
          rw [hrl] at h
          cases h
        | some st =>
          rw [hrl] at h
          simp only [] at h
          by_cases h4 : (st.tweets.length = 0 && env.blockedFinal &&
              !hasCookies env.cookieArray : Bool)
          · rw [if_pos h4] at h
            cases h
            rfl
          · rw [if_neg h4] at h
            cases h
            rfl
    · rw [if_neg h2] at h
      cases h
      rfl
  · rw [if_neg h1] at h
    cases h
    exact absurd rfl hc

def envC4w : Env :=
  ⟨none, true, true, false, false, fun _ => [], fun _ => 0, fun _ => none, 1⟩

/-- C4 witness for the amended claim, at a run that returns normally. -/
theorem c4_session_close_witness :
    (RunTrace.mk (Outcome.ok []) true true true).browserClosed = true :=
  c4_session_close envC4w 1 2 ⟨Outcome.ok [], true, true, true⟩ rfl (by decide)

/-- C8: every item the Page Extractor emits has non-empty body text and
a non-empty permalink (candidates lacking either are not pushed). -/
theorem c8_emitted_nonempty (doc : List Article) (t : Tweet)
    (h : t ∈ extractTweetsFromPage doc) : t.text ≠ "" ∧ t.link ≠ "" := by
  unfold extractTweetsFromPage at h
  obtain ⟨art, -, hart⟩ := List.mem_filterMap.mp h
  unfold extractArticle at hart
  by_cases hb : art.broken
  · rw [if_pos hb] at hart
    cases hart
  · rw [if_neg hb] at hart
    by_cases hg : articleText art ≠ "" ∧ articleLink art ≠ ""
    · rw [if_pos hg] at hart
      cases hart
      exact hg
    · rw [if_neg hg] at hart
      cases hart

def artC8 : Article :=
  ⟨some "hello", [⟨"/u/status/7", none, none, none, none⟩],
   none, none, false, none, "", false⟩

def twC8 : Tweet := ⟨"", "", "hello", "https://twitter.com/u/status/7", some 0, false, none⟩

/-- C8 witness at a concrete snapshot. -/
theorem c8_emitted_nonempty_witness :
    twC8 ∈ extractTweetsFromPage [artC8] ∧ twC8.text ≠ "" ∧ twC8.link ≠ "" :=
  ⟨by decide, c8_emitted_nonempty [artC8] twC8 (by decide)⟩

/-- C2: on the search surface, a positive block check aborts with
LOGIN_REQUIRED iff no cookies were supplied.  (a) blocked + no cookies
aborts immediately; (b) with cookies the run proceeds into the loop and
returns the (possibly empty) post-processed result whatever the block
checks said; (c) blocked + no cookies + zero items aborts at the
re-check; (d) a LOGIN_REQUIRED outcome at either block site implies no
cookies were supplied. -/
theorem c2_search_block_gate (env : Env) (m fuel : Nat)
    (h1 : env.loggedInEvalOk = true) (h2 : env.loggedIn = true) :
    (env.blockedImmediately = true → hasCookies env.cookieArray = false →
      scrape env m fuel =
        some ⟨Outcome.loginRequired searchBlockedMsg, true, true, false⟩)
    ∧ (hasCookies env.cookieArray = true →
        ∀ st, runLoop env m fuel initLoopState = some st →
          scrape env m fuel =
            some ⟨Outcome.ok (postProcess env.dateParse st.tweets m), true, true, true⟩)
    ∧ (∀ st, runLoop env m fuel initLoopState = some st →
        env.blockedImmediately = false → st.tweets.length = 0 →
        env.blockedFinal = true → hasCookies env.cookieArray = false →
        scrape env m fuel =
          some ⟨Outcome.loginRequired finalBlockedMsg, true, true, true⟩)
    ∧ (∀ tr, scrape env m fuel = some tr →
        (tr.outcome = Outcome.loginRequired searchBlockedMsg ∨
         tr.outcome = Outcome.loginRequired finalBlockedMsg) →
        hasCookies env.cookieArray = false) := by
  refine ⟨?_, ?_, ?_, ?_⟩
  · intro hb hc
    unfold scrape
    rw [if_pos h1, if_pos h2]
    rw [if_pos (show (env.blockedImmediately && !hasCookies env.cookieArray) = true by
      simp [hb, hc])]
  · intro hc st hst
    unfold scrape
    rw [if_pos h1, if_pos h2]
    rw [if_neg (show ¬ (env.blockedImmediately && !hasCookies env.cookieArray) = true by
      simp [hc])]
    rw [hst]
    simp only []
    rw [if_neg (show ¬ (st.tweets.length = 0 && env.blockedFinal &&
        !hasCookies env.cookieArray) = true by simp [hc])]
  · intro st hst hb hlen hbf hc
    unfold scrape
    rw [if_pos h1, if_pos h2]
    rw [if_neg (show ¬ (env.blockedImmediately && !hasCookies env.cookieArray) = true by
      simp [hb])]
    rw [hst]
    simp only []
    rw [if_pos (show (st.tweets.length = 0 && env.blockedFinal &&
        !hasCookies env.cookieArray) = true by simp [hlen, hbf, hc])]
  · intro tr htr hor
    by_cases hc : hasCookies env.cookieArray
    · exfalso
      unfold scrape at htr
      rw [if_pos h1, if_pos h2] at htr
      by_cases h3 : (env.blockedImmediately && !hasCookies env.cookieArray : Bool)
      · simp [hc] at h3
      · rw [if_neg h3] at htr
        cases hrl : runLoop env m fuel initLoopState with
        | none =>
          rw [hrl] at htr
          cases htr
        | some st =>
          rw [hrl] at htr
          simp only [] at htr
          by_cases h4 : (st.tweets.length = 0 && env.blockedFinal &&
              !hasCookies env.cookieArray : Bool)
          · simp [hc] at h4
          · rw [if_neg h4] at htr
            cases htr
            rcases hor with hor | hor <;> cases hor
    · exact Bool.eq_false_iff.mpr hc

def envC2 : Env :=
  ⟨none, true, true, true, true, fun _ => [], fun _ => 0, fun _ => none, 12⟩

/-- C2 witness: blocked search surface, no cookies, immediate abort. -/
theorem c2_search_block_gate_witness :
    scrape envC2 5 9 =
      some ⟨Outcome.loginRequired searchBlockedMsg, true, true, false⟩ :=
  (c2_search_block_gate envC2 5 9 rfl rfl).1 rfl rfl

/-- C6: the Collection Loop runs exactly until enough items or the
stagnation budget: (1) any state the loop stops in fails the guard;
(2) a non-breaking iteration increments the stagnation counter exactly
when the height is unchanged, and resets it (recording the new height)
when it changed; (3) a state failing the guard is returned as-is; (4)
stopping short of maxItems is not an error - the run returns the
collected items post-processed. -/
theorem c6_loop_termination (env : Env) (m : Nat) :
    (∀ (fuel : Nat) (st st' : LoopState), runLoop env m fuel st = some st' →
      m ≤ st'.tweets.length ∨ env.budget ≤ st'.scrollAttempts)
    ∧ (∀ st : LoopState, (mergeTweets st.tweets (env.batch st.iter)).length < m →
        loopBody env m st = Sum.inr ⟨mergeTweets st.tweets (env.batch st.iter),
          if env.height st.iter = st.lastHeight then st.scrollAttempts + 1 else 0,
          if env.height st.iter = st.lastHeight then st.lastHeight else env.height st.iter,
          st.iter + 1⟩)
    ∧ (∀ (fuel : Nat) (st : LoopState), loopGuard m env.budget st = false →
        runLoop env m fuel st = some st)
    ∧ (∀ (fuel : Nat) (st : LoopState),
        env.loggedInEvalOk = true → env.loggedIn = true →
        (env.blockedImmediately && !hasCookies env.cookieArray) = false →
        runLoop env m fuel initLoopState = some st →
        st.tweets ≠ [] →
        scrape env m fuel =
          some ⟨Outcome.ok (postProcess env.dateParse st.tweets m), true, true, true⟩) := by
  refine ⟨runLoop_done env m, loopBody_continue env m, runLoop_exit env m, ?_⟩
  intro fuel st h1 h2 hb hst hne
  unfold scrape
  rw [if_pos h1, if_pos h2]
  rw [if_neg (show ¬ (env.blockedImmediately && !hasCookies env.cookieArray) = true by
    simp [hb])]
  rw [hst]
  simp only []
  rw [if_neg (show ¬ (st.tweets.length = 0 && env.blockedFinal &&
      !hasCookies env.cookieArray) = true by
    simp [List.length_eq_zero, hne])]

def envC6 : Env :=
  ⟨none, true, true, false, false, fun _ => [], fun _ => 0, fun _ => none, 2⟩

/-- C6 witness: empty batches and constant height exhaust the budget of
2 after two stagnant attempts; the stop state fails the guard. -/
theorem c6_loop_termination_witness :
    runLoop envC6 1 10 initLoopState = some ⟨[], 2, 0, 2⟩ ∧
    (1 ≤ ([] : List Tweet).length ∨ envC6.budget ≤ 2) :=
  ⟨rfl, (c6_loop_termination envC6 1).1 10 initLoopState ⟨[], 2, 0, 2⟩ rfl⟩

def artC7 : Article :=
  ⟨some "dup", [⟨"/u/status/9", none, none, none, none⟩],
   none, none, false, none, "", false⟩

def twC7 : Tweet := ⟨"", "", "dup", "https://twitter.com/u/status/9", some 0, false, none⟩

/-- C7 counterexample: the extractor itself does NOT deduplicate - a
snapshot with two candidate containers carrying the same permalink
yields two items with that permalink in a single pass. -/
theorem c7_extractor_dup_cx :
    extractTweetsFromPage [artC7, artC7] = [twC7, twC7] ∧
    ¬ ((extractTweetsFromPage [artC7, artC7]).Pairwise
        (fun a b => a.link ≠ b.link)) := by
  refine ⟨by decide, ?_⟩
  intro hp
  rw [show extractTweetsFromPage [artC7, artC7] = [twC7, twC7] by decide] at hp
  rcases List.pairwise_cons.mp hp with ⟨hhead, -⟩
  exact hhead twC7 (List.mem_cons_self _ _) rfl

/-- C7 amended: the extractor emits at most one item per candidate
container and performs no deduplication; uniqueness by permalink is
restored when the Collection Loop merges the extracted batch. -/
theorem c7_merge_restores_unique (doc : List Article) (tweets : List Tweet) :
    (extractTweetsFromPage doc).length ≤ doc.length
    ∧ ((mergeTweets tweets (extractTweetsFromPage doc)).map
        (fun t => t.link)).Nodup :=
  ⟨List.length_filterMap_le _ _, mergeTweets_links_nodup _ _⟩

/-- C9 amended: the like count is `some 0` when the control or a
digit/comma run is absent; it is the parsed comma-stripped number (a
non-negative integer) when the first run contains a digit; and it is
`NaN` exactly when the first run consists solely of commas
(`parseInt('')`). -/
theorem c9_like_count (art : Article) :
    (likesOf art = none ↔ ∃ lc, art.likeCtl = some lc ∧
      ∃ run, firstDigitCommaRun (likeText lc).toList = some run ∧
        run ≠ [] ∧ ∀ c ∈ run, c = ',')
    ∧ (∀ (lc : LikeCtl) (run : List Char), art.likeCtl = some lc →
        firstDigitCommaRun (likeText lc).toList = some run →
        (∃ c ∈ run, c.isDigit) →
        likesOf art = some (digitsToNat (run.filter (fun c => c ≠ ','))))
    ∧ ((art.likeCtl = none ∨ ∃ lc, art.likeCtl = some lc ∧
        firstDigitCommaRun (likeText lc).toList = none) →
        likesOf art = some 0) := by
  refine ⟨likesOf_none_iff art, ?_, likesOf_default art⟩
  intro lc run hctl hrun hd
  exact likesOf_digit hctl hrun hd

def artC9 : Article :=
  ⟨some "hi", [⟨"/u/status/3", none, none, none, none⟩],
   none, some ⟨some "Like, reply", ""⟩, false, none, "", false⟩

/-- C9 counterexample: an emitted item whose like control text is
"Like, reply" carries like count NaN - the first digit/comma run is
"," and `parseInt('')` is NaN, not 0 - refuting "no emitted item ever
carries a non-numeric like count". -/
theorem c9_like_nan_cx :
    (extractTweetsFromPage [artC9]).map (fun t => t.likes) = [none] := by decide

def artC9w : Article :=
  ⟨some "hi", [], none, some ⟨some "1,234 Likes", ""⟩, false, none, "", false⟩

/-- C9 witness: a digit-bearing run parses to its comma-stripped
value. -/
theorem c9_like_count_witness : likesOf artC9w = some 1234 :=
  ((c9_like_count artC9w).2.1 ⟨some "1,234 Likes", ""⟩ ("1,234".toList)
    rfl (by decide) (by decide)).trans (by decide)

/-- Claim-side ordering for the refinement comparison of C5: "null
treated as minimal" - a null normalized timestamp sorts below every
non-null one. -/
def nullMinLe (a b : RTweet) : Bool :=
  match a.timestamp_iso, b.timestamp_iso with
  | none, _ => true
  | some _, none => false
  | some x, some y => decide (x ≤ y)

/-- Claim-side stable insertion under `nullMinLe` (descending, ties keep
discovery order). -/
def specInsertNullMin (t : RTweet) : List RTweet → List RTweet
  | [] => [t]
  | u :: us => if nullMinLe u t then t :: u :: us else u :: specInsertNullMin t us

/-- Claim-side stable descending sort with null minimal. -/
def specSortNullMin : List RTweet → List RTweet
  | [] => []
  | t :: ts => specInsertNullMin t (specSortNullMin ts)

/-- The RunResult C5 claims: stable descending order with null
timestamps minimal, truncated. -/
def specResultNullMin (dateParse : String → Option Int) (tweets : List Tweet)
    (m : Nat) : List RTweet :=
  (specSortNullMin (tweets.map (normalizeTweet dateParse))).take m

/-- JS `Date` behaviour on the one timestamp string of the C5
counterexample: `new Date('1969-12-31T23:59:59.000Z').getTime()` is
-1000 (a pre-epoch instant); other strings are treated as invalid. -/
def jsDateC5 : String → Option Int := fun s =>
  if s = "1969-12-31T23:59:59.000Z" then some (-1000) else none

def twC5neg : Tweet :=
  ⟨"", "", "old", "https://twitter.com/a/status/1", some 0, false,
   some "1969-12-31T23:59:59.000Z"⟩

def twC5null : Tweet :=
  ⟨"", "", "nul", "https://twitter.com/b/status/2", some 0, false, none⟩

/-- C5 counterexample: the code maps a null timestamp to epoch 0, not to
a minimal value, so an item with a pre-epoch timestamp (key -1000)
sorts BELOW the null item (key 0): the returned order is [null, -1000],
while the claimed null-minimal order is [-1000, null]. -/
theorem c5_null_minimal_cx :
    postProcess jsDateC5 [twC5neg, twC5null] 2 ≠
      specResultNullMin jsDateC5 [twC5neg, twC5null] 2 := by decide

/-- C5 amended: the result is the stable descending sort by normalized
timestamp with null mapped to epoch 0 (not to a minimal value),
truncated: its length is min(maxItems, total), it is non-increasing in
the epoch-0 key, the sort permutes the normalized items, ties (equal
keys) keep discovery order, and a null normalized timestamp has key
0. -/
theorem c5_sort_truncate (dateParse : String → Option Int)
    (tweets : List Tweet) (m : Nat) :
    (postProcess dateParse tweets m).length = min m tweets.length
    ∧ (postProcess dateParse tweets m).Pairwise
        (fun a b => sortKey b ≤ sortKey a)
    ∧ (sortDesc (tweets.map (normalizeTweet dateParse))).Perm
        (tweets.map (normalizeTweet dateParse))
    ∧ (∀ k : Int,
        (sortDesc (tweets.map (normalizeTweet dateParse))).filter
            (fun u => sortKey u == k) =
          (tweets.map (normalizeTweet dateParse)).filter
            (fun u => sortKey u == k))
    ∧ (∀ t : RTweet, t.timestamp_iso = none → sortKey t = 0) := by
  refine ⟨?_, ?_, sortDesc_perm _, fun k => sortDesc_filter k _, ?_⟩
  · unfold postProcess
    rw [List.length_take, sortDesc_length, List.length_map]
  · unfold postProcess
    exact List.Pairwise.sublist (List.take_sublist m _) (sortDesc_pairwise _)
  · intro t h
    unfold sortKey
    rw [h]

/-- C5 witness: the truncation law evaluated at the concrete pair. -/
theorem c5_sort_truncate_witness :
    (postProcess jsDateC5 [twC5neg, twC5null] 1).length = min 1 2 :=
  (c5_sort_truncate jsDateC5 [twC5neg, twC5null] 1).1

/-- C10: with both fields absent (or null) the maximum defaults to 1;
when the field value selected by the fallback chain parses as an
integer v the maximum is max(1, v); and every non-NaN maximum is at
least 1 - a caller can never request fewer than one item. -/
theorem c10_max_tweets_clamp (ptr mt : Option JsVal) :
    ((ptr = none ∨ ptr = some JsVal.nullv) →
      (mt = none ∨ mt = some JsVal.nullv) →
      maxTweetsOf ptr mt = some 1)
    ∧ (∀ v : Int, jsParseInt10 (jsToString (chain2 ptr mt)) = some v →
        maxTweetsOf ptr mt = some (max 1 v))
    ∧ (∀ r : Int, maxTweetsOf ptr mt = some r → 1 ≤ r) := by
  refine ⟨?_, ?_, ?_⟩
  · rintro (rfl | rfl) (rfl | rfl) <;> decide
  · intro v hv
    unfold maxTweetsOf
    rw [hv]
  · intro r hr
    unfold maxTweetsOf at hr
    cases hp : jsParseInt10 (jsToString (chain2 ptr mt)) with
    | none =>
      rw [hp] at hr
      cases hr
    | some v =>
      rw [hp] at hr
      cases hr
      exact le_max_left 1 v

/-- C10 witness: a negative requested count is clamped up to 1. -/
theorem c10_max_tweets_clamp_witness :
    maxTweetsOf (some (JsVal.num (-7))) none = some (max 1 (-7)) ∧
    (1 : Int) ≤ max 1 (-7) := by
  constructor
  · exact (c10_max_tweets_clamp (some (JsVal.num (-7))) none).2.1 (-7) (by decide)
  · decide
